import Mathlib

/-!
# Verification of the `GlyphBezierEditor` glyph-editing logic

A shallow embedding of the interactive glyph Bezier editor shipped with the
font-proof marketing site (`js/site.js` and the unnamed build copy of the same
class).  JavaScript numbers are modelled as exact rationals (`ℚ`); a JS object
field that may be `undefined` is an `Option ℚ`.  The repository contains two
copies of the editor class whose `onMouseMove` handlers differ in the
main-point branch: one copy propagates the drag delta to the attached control
points (`onMouseMoveProp` below, from the unnamed copy), the other moves only
the main point (`onMouseMoveSimple`, from `js/site.js`).  All other handlers
are identical between the copies.
-/

namespace GlyphEditor

/-- A path command as delivered by the font library (`this.originalPath.commands`):
a type tag `'M' | 'L' | 'C' | 'Q' | 'Z'` and up to three coordinate pairs, any
of which may be absent (`undefined`). -/
structure PathCommand where
  ctype : String
  x : Option ℚ
  y : Option ℚ
  x1 : Option ℚ
  y1 : Option ℚ
  x2 : Option ℚ
  y2 : Option ℚ
deriving DecidableEq

/-- An editable command as built by `parseGlyphPath`: the mutable coordinates
plus the original-position shadow copies used by `resetGlyph`.  Fields that
the source may leave unset (`undefined`) are `Option ℚ`. -/
structure EditableCmd where
  ctype : String
  x : Option ℚ
  y : Option ℚ
  originalX : Option ℚ
  originalY : Option ℚ
  x1 : Option ℚ
  y1 : Option ℚ
  originalX1 : Option ℚ
  originalY1 : Option ℚ
  x2 : Option ℚ
  y2 : Option ℚ
  originalX2 : Option ℚ
  originalY2 : Option ℚ
deriving DecidableEq

/-- One step of `parseGlyphPath`'s loop body: build the editable command for a
single source command.  `cmd.x || 0` in JS replaces `undefined` (and `0`) by
`0`, i.e. it is `Option.getD · 0`; the `x1`/`x2` blocks copy the control-point
fields only when `x1` (resp. `x2`) is defined. -/
def parseCommand (cmd : PathCommand) : EditableCmd :=
  let base : EditableCmd :=
    { ctype := cmd.ctype
      x := some (cmd.x.getD 0)
      y := some (cmd.y.getD 0)
      originalX := some (cmd.x.getD 0)
      originalY := some (cmd.y.getD 0)
      x1 := none, y1 := none, originalX1 := none, originalY1 := none
      x2 := none, y2 := none, originalX2 := none, originalY2 := none }
  let withCp1 :=
    if cmd.x1.isSome then
      { base with x1 := cmd.x1, y1 := cmd.y1
                  originalX1 := cmd.x1, originalY1 := cmd.y1 }
    else base
  if cmd.x2.isSome then
    { withCp1 with x2 := cmd.x2, y2 := cmd.y2
                   originalX2 := cmd.x2, originalY2 := cmd.y2 }
  else withCp1

/-- `parseGlyphPath`: convert every command of the loaded path to the editable
format, in order. -/
def parseGlyphPath (commands : List PathCommand) : List EditableCmd :=
  commands.map parseCommand

/-- The view-transform state of the editor: `this.scale`, `this.offsetX`,
`this.offsetY` (stored as flat fields on the editor object in the source). -/
structure Transform where
  scale : ℚ
  offsetX : ℚ
  offsetY : ℚ
deriving DecidableEq

/-- `transformPoint`: font-unit space to screen space (Y axis flipped). -/
def transformPoint (tf : Transform) (x y : ℚ) : ℚ × ℚ :=
  (tf.offsetX + x * tf.scale, tf.offsetY - y * tf.scale)

/-- `inverseTransformPoint`: screen space back to font-unit space. -/
def inverseTransformPoint (tf : Transform) (x y : ℚ) : ℚ × ℚ :=
  ((x - tf.offsetX) / tf.scale, -((y - tf.offsetY) / tf.scale))

/-- The glyph bounding box returned by `this.glyph.getBoundingBox()`. -/
structure BBox where
  x1 : ℚ
  y1 : ℚ
  x2 : ℚ
  y2 : ℚ
deriving DecidableEq

/-- `calculateOptimalScale`: fit the glyph's bounding box into 80% of the
canvas rectangle (of width `rw` and height `rh`) and centre it.  Returns the
resulting transform fields `scale`, `offsetX`, `offsetY`. -/
def calculateOptimalScale (bbox : BBox) (rw rh : ℚ) : Transform :=
  let glyphWidth := bbox.x2 - bbox.x1
  let glyphHeight := bbox.y2 - bbox.y1
  let canvasWidth := rw * (0.8 : ℚ)
  let canvasHeight := rh * (0.8 : ℚ)
  let scaleX := canvasWidth / glyphWidth
  let scaleY := canvasHeight / glyphHeight
  let scale := min scaleX scaleY
  let glyphCenterX := (bbox.x1 + bbox.x2) / 2
  let glyphCenterY := (bbox.y1 + bbox.y2) / 2
  { scale := scale
    offsetX := rw / 2 - glyphCenterX * scale
    offsetY := rh / 2 + glyphCenterY * scale }

/-- The tag of a hit point: the source uses the strings
`'main'`, `'cp1'`, `'cp2'`. -/
inductive PointType where
  | main
  | cp1
  | cp2
deriving DecidableEq

/-- The result object of `findControlPoint`: `{ cmdIndex, pointType }`. -/
structure DragPoint where
  cmdIndex : ℕ
  pointType : PointType
deriving DecidableEq

/-- One distance test of `findControlPoint`: a coordinate pair is hit when both
fields are defined and the screen-space point lies within `r` pixels of the
mouse.  The source compares `Math.sqrt(dx*dx + dy*dy) <= r`; for the
editor's radius (a positive constant, `8` resp. `4`) this is equivalent to the
squared comparison `dx^2 + dy^2 <= r^2` used here, which is exact over `ℚ`. -/
def hitTest (tf : Transform) (r mx my : ℚ) (ox oy : Option ℚ) : Bool :=
  match ox, oy with
  | some px, some py =>
    let p := transformPoint tf px py
    decide ((mx - p.1) ^ 2 + (my - p.2) ^ 2 ≤ r ^ 2)
  | _, _ => false

/-- The body of `findControlPoint`'s loop from index `i` on: test each
command's main point, then `cp1`, then `cp2`, returning the first hit. -/
def findFrom (tf : Transform) (r mx my : ℚ) : ℕ → List EditableCmd → Option DragPoint
  | _, [] => none
  | i, cmd :: rest =>
    if hitTest tf r mx my cmd.x cmd.y then some ⟨i, .main⟩
    else if hitTest tf r mx my cmd.x1 cmd.y1 then some ⟨i, .cp1⟩
    else if hitTest tf r mx my cmd.x2 cmd.y2 then some ⟨i, .cp2⟩
    else findFrom tf r mx my (i + 1) rest

/-- `findControlPoint(mouseX, mouseY)`: scan `editableCommands` from index `0`
with radius `r = this.controlPointRadius`. -/
def findControlPoint (tf : Transform) (r : ℚ) (cmds : List EditableCmd)
    (mx my : ℚ) : Option DragPoint :=
  findFrom tf r mx my 0 cmds

/-- The editor state touched by the mouse handlers.  The canvas cursor and the
rendering context carry no data relevant to the claims and are omitted. -/
structure EditorState where
  showControlPoints : Bool
  isDragging : Bool
  dragPoint : Option DragPoint
  editableCommands : List EditableCmd
  tf : Transform
  controlPointRadius : ℚ
deriving DecidableEq

/-- The constructor's initial field values: `showControlPoints = true`,
`isDragging = false`, `dragPoint = null`, `editableCommands = []`,
`scale = 1`, `offsetX = offsetY = 0`; the radius is `8` in `js/site.js` and
`4` in the unnamed copy, so it is a parameter. -/
def initialState (r : ℚ) : EditorState :=
  { showControlPoints := true
    isDragging := false
    dragPoint := none
    editableCommands := []
    tf := { scale := 1, offsetX := 0, offsetY := 0 }
    controlPointRadius := r }

/-- `onMouseDown`: ignored while control points are hidden; otherwise store the
hit-test result in `dragPoint` and, when it is non-null, set `isDragging`.
(The mouse position is already canvas-relative, as `getMousePos` delivers it.) -/
def onMouseDown (s : EditorState) (mx my : ℚ) : EditorState :=
  if !s.showControlPoints then s
  else
    let dp := findControlPoint s.tf s.controlPointRadius s.editableCommands mx my
    let s1 := { s with dragPoint := dp }
    if dp.isSome then { s1 with isDragging := true } else s1

/-- `onMouseUp` (also bound to `mouseleave`): clear the drag state. -/
def onMouseUp (s : EditorState) : EditorState :=
  { s with isDragging := false, dragPoint := none }

/-- `cmd.x = worldPos.x; cmd.y = worldPos.y`: move a command's main point. -/
def moveMain (cmd : EditableCmd) (wx wy : ℚ) : EditableCmd :=
  { cmd with x := some wx, y := some wy }

/-- `cmd.x1 += deltaX; cmd.y1 += deltaY`: shift a command's first control
point by a delta. -/
def shiftCp1 (cmd : EditableCmd) (dx dy : ℚ) : EditableCmd :=
  { cmd with x1 := cmd.x1.map (· + dx), y1 := cmd.y1.map (· + dy) }

/-- `cmd.x2 += deltaX; cmd.y2 += deltaY`: shift a command's second control
point by a delta. -/
def shiftCp2 (cmd : EditableCmd) (dx dy : ℚ) : EditableCmd :=
  { cmd with x2 := cmd.x2.map (· + dx), y2 := cmd.y2.map (· + dy) }

/-- The `'cp1'` branch of `onMouseMove` (identical in both copies):
`cmd.x1 = worldPos.x; cmd.y1 = worldPos.y` on the dragged command. -/
def dragCp1 (cmds : List EditableCmd) (i : ℕ) (wx wy : ℚ) : List EditableCmd :=
  match cmds[i]? with
  | none => cmds
  | some cmd => cmds.set i { cmd with x1 := some wx, y1 := some wy }

/-- The `'cp2'` branch of `onMouseMove` (identical in both copies). -/
def dragCp2 (cmds : List EditableCmd) (i : ℕ) (wx wy : ℚ) : List EditableCmd :=
  match cmds[i]? with
  | none => cmds
  | some cmd => cmds.set i { cmd with x2 := some wx, y2 := some wy }

/-- The `'main'` branch of the `js/site.js` copy: move only the main point. -/
def dragMainSimple (cmds : List EditableCmd) (i : ℕ) (wx wy : ℚ) : List EditableCmd :=
  match cmds[i]? with
  | none => cmds
  | some cmd => cmds.set i (moveMain cmd wx wy)

/-- The `'main'` branch of the propagating copy: compute the delta
`worldPos - cmd`, move the main point, shift this command's `cp2` by the delta
when `x2` is defined, and shift the next command's `cp1` by the delta when the
dragged command is not the last and the next command's `x1` is defined.
The source reads `cmd.x`/`cmd.y` which are always defined for a point reached
through `findControlPoint`; absent values are defaulted here. -/
def dragMainProp (cmds : List EditableCmd) (i : ℕ) (wx wy : ℚ) : List EditableCmd :=
  match cmds[i]? with
  | none => cmds
  | some cmd =>
    let deltaX := wx - cmd.x.getD 0
    let deltaY := wy - cmd.y.getD 0
    let cmds1 := cmds.set i
      (if cmd.x2.isSome then shiftCp2 (moveMain cmd wx wy) deltaX deltaY
       else moveMain cmd wx wy)
    if i < cmds.length - 1 then
      match cmds1[i + 1]? with
      | none => cmds1
      | some nextCmd =>
        if nextCmd.x1.isSome then cmds1.set (i + 1) (shiftCp1 nextCmd deltaX deltaY)
        else cmds1
    else cmds1

/-- `onMouseMove` of the `js/site.js` copy.  While a drag is in progress
(`isDragging && dragPoint`), convert the mouse position to font units and
update the dragged point; otherwise only the cursor changes (no state here). -/
def onMouseMoveSimple (s : EditorState) (mx my : ℚ) : EditorState :=
  match s.isDragging, s.dragPoint with
  | true, some dp =>
    let wp := inverseTransformPoint s.tf mx my
    match dp.pointType with
    | .main => { s with editableCommands := dragMainSimple s.editableCommands dp.cmdIndex wp.1 wp.2 }
    | .cp1 => { s with editableCommands := dragCp1 s.editableCommands dp.cmdIndex wp.1 wp.2 }
    | .cp2 => { s with editableCommands := dragCp2 s.editableCommands dp.cmdIndex wp.1 wp.2 }
  | _, _ => s

/-- `onMouseMove` of the propagating (unnamed) copy: as `onMouseMoveSimple`,
except that dragging a main point co-moves the attached control points. -/
def onMouseMoveProp (s : EditorState) (mx my : ℚ) : EditorState :=
  match s.isDragging, s.dragPoint with
  | true, some dp =>
    let wp := inverseTransformPoint s.tf mx my
    match dp.pointType with
    | .main => { s with editableCommands := dragMainProp s.editableCommands dp.cmdIndex wp.1 wp.2 }
    | .cp1 => { s with editableCommands := dragCp1 s.editableCommands dp.cmdIndex wp.1 wp.2 }
    | .cp2 => { s with editableCommands := dragCp2 s.editableCommands dp.cmdIndex wp.1 wp.2 }
  | _, _ => s

/-- `resetGlyph`'s loop body: copy every original field back, the control-point
pairs only when their original is defined. -/
def resetCommand (cmd : EditableCmd) : EditableCmd :=
  let c1 := { cmd with x := cmd.originalX, y := cmd.originalY }
  let c2 :=
    if cmd.originalX1.isSome then
      { c1 with x1 := c1.originalX1, y1 := c1.originalY1 }
    else c1
  if cmd.originalX2.isSome then
    { c2 with x2 := c2.originalX2, y2 := c2.originalY2 }
  else c2

/-- `resetGlyph`: restore every command to its original position. -/
def resetGlyph (cmds : List EditableCmd) : List EditableCmd :=
  cmds.map resetCommand

/-- The observable steps `setup` performs after the canvas is acquired and the
font load settles; used to state the failure-path claim. -/
inductive SetupStep where
  | parseGlyph
  | calculateScale
  | setupControls
  | setupEventListeners
  | render
  | logError
  | renderFallback
deriving DecidableEq

/-- The glyph data `setup` extracts from a successfully loaded font. -/
structure GlyphData where
  pathCommands : List PathCommand
  bbox : BBox
deriving DecidableEq

/-- The tail of `setup` (source lines 63–88): on a successful load it parses
the glyph path, computes the scale, installs controls and event listeners and
renders; when the awaited load throws it logs the error and renders the static
fallback, touching nothing else.  The result records the performed steps and
the final `editableCommands` (empty from the constructor on entry). -/
def setupAfterLoad (loadResult : Except String GlyphData) :
    List SetupStep × List EditableCmd :=
  match loadResult with
  | .ok g =>
    ([.parseGlyph, .calculateScale, .setupControls, .setupEventListeners, .render],
      parseGlyphPath g.pathCommands)
  | .error _ => ([.logError, .renderFallback], [])

/-- The coordinate pair of one of a command's three points. -/
def pointCoords (cmd : EditableCmd) : PointType → Option ℚ × Option ℚ
  | .main => (cmd.x, cmd.y)
  | .cp1 => (cmd.x1, cmd.y1)
  | .cp2 => (cmd.x2, cmd.y2)

/-- Whether a given point of a command is within the hit radius. -/
def hitsPt (tf : Transform) (r mx my : ℚ) (cmd : EditableCmd) (t : PointType) : Bool :=
  hitTest tf r mx my (pointCoords cmd t).1 (pointCoords cmd t).2

/-- Whether any point of a command is within the hit radius. -/
def cmdHit (tf : Transform) (r mx my : ℚ) (cmd : EditableCmd) : Bool :=
  hitsPt tf r mx my cmd .main || hitsPt tf r mx my cmd .cp1 || hitsPt tf r mx my cmd .cp2

/-- The scan order of the three point kinds inside one command. -/
def ptRank : PointType → ℕ
  | .main => 0
  | .cp1 => 1
  | .cp2 => 2

/-- The original-position shadow fields of a command, as one tuple. -/
def origFields (c : EditableCmd) :
    Option ℚ × Option ℚ × Option ℚ × Option ℚ × Option ℚ × Option ℚ :=
  (c.originalX, c.originalY, c.originalX1, c.originalY1, c.originalX2, c.originalY2)

/-- Iterate `onMouseMoveProp` over a list of mouse positions. -/
def runMovesProp (s : EditorState) (evs : List (ℚ × ℚ)) : EditorState :=
  evs.foldl (fun st e => onMouseMoveProp st e.1 e.2) s

/-- Iterate `onMouseMoveSimple` over a list of mouse positions. -/
def runMovesSimple (s : EditorState) (evs : List (ℚ × ℚ)) : EditorState :=
  evs.foldl (fun st e => onMouseMoveSimple st e.1 e.2) s

/-- The drag-state invariant: a drag in progress always has a drag point. -/
def dragInv (s : EditorState) : Prop :=
  s.isDragging = true → s.dragPoint ≠ none

instance (s : EditorState) : Decidable (dragInv s) := by
  unfold dragInv
  infer_instance

/-- The field shape the specification asserts for each command type: `M`/`L`
hold only a main point, `Q` additionally the first control point, `C` both
control points, and `Z` no coordinate fields at all. -/
def fieldsMatchTypeStrict (c : EditableCmd) : Bool :=
  if c.ctype = "M" ∨ c.ctype = "L" then
    c.x.isSome && c.y.isSome && c.x1.isNone && c.y1.isNone && c.x2.isNone && c.y2.isNone
  else if c.ctype = "Q" then
    c.x.isSome && c.y.isSome && c.x1.isSome && c.y1.isSome && c.x2.isNone && c.y2.isNone
  else if c.ctype = "C" then
    c.x.isSome && c.y.isSome && c.x1.isSome && c.y1.isSome && c.x2.isSome && c.y2.isSome
  else if c.ctype = "Z" then
    c.x.isNone && c.y.isNone && c.x1.isNone && c.y1.isNone && c.x2.isNone && c.y2.isNone
  else true

/-- The field shape a font-library path command has for its type tag (the
library always populates exactly the coordinates the type needs). -/
def inputFieldsMatchType (c : PathCommand) : Bool :=
  if c.ctype = "M" ∨ c.ctype = "L" then
    c.x.isSome && c.y.isSome && c.x1.isNone && c.y1.isNone && c.x2.isNone && c.y2.isNone
  else if c.ctype = "Q" then
    c.x.isSome && c.y.isSome && c.x1.isSome && c.y1.isSome && c.x2.isNone && c.y2.isNone
  else if c.ctype = "C" then
    c.x.isSome && c.y.isSome && c.x1.isSome && c.y1.isSome && c.x2.isSome && c.y2.isSome
  else if c.ctype = "Z" then
    c.x.isNone && c.y.isNone && c.x1.isNone && c.y1.isNone && c.x2.isNone && c.y2.isNone
  else false

/-- The field shape `parseGlyphPath` actually produces: as the strict shape,
except that a `Z` command also carries a materialised main point, defaulted to
`(0, 0)`, because the parser writes `x: cmd.x || 0` unconditionally. -/
def fieldsMatchTypeAmended (c : EditableCmd) : Bool :=
  if c.ctype = "M" ∨ c.ctype = "L" then
    c.x.isSome && c.y.isSome && c.x1.isNone && c.y1.isNone && c.x2.isNone && c.y2.isNone
  else if c.ctype = "Q" then
    c.x.isSome && c.y.isSome && c.x1.isSome && c.y1.isSome && c.x2.isNone && c.y2.isNone
  else if c.ctype = "C" then
    c.x.isSome && c.y.isSome && c.x1.isSome && c.y1.isSome && c.x2.isSome && c.y2.isSome
  else if c.ctype = "Z" then
    decide (c.x = some 0) && decide (c.y = some 0) &&
      c.x1.isNone && c.y1.isNone && c.x2.isNone && c.y2.isNone
  else true

/-- A screen point lying in the central 80% band of the canvas rectangle in
each axis (and hence strictly inside the canvas when the rectangle is
non-degenerate). -/
def insideCanvas80 (cw ch : ℚ) (q : ℚ × ℚ) : Prop :=
  cw / 10 ≤ q.1 ∧ q.1 ≤ 9 * cw / 10 ∧ ch / 10 ≤ q.2 ∧ q.2 ≤ 9 * ch / 10 ∧
  0 < q.1 ∧ q.1 < cw ∧ 0 < q.2 ∧ q.2 < ch

/-! ### Concrete sample values used in closed instances -/

/-- The identity-like view transform: unit scale, zero offsets. -/
def tfId : Transform := { scale := 1, offsetX := 0, offsetY := 0 }

/-- A lone `M` command whose main point sits at the font-space origin. -/
def sampleMainCmd : EditableCmd :=
  { ctype := "M", x := some 0, y := some 0, originalX := some 0, originalY := some 0
    x1 := none, y1 := none, originalX1 := none, originalY1 := none
    x2 := none, y2 := none, originalX2 := none, originalY2 := none }

/-- An `M` command whose main point maps to screen distance 7 from the
origin — within an 8-pixel radius but not nearest. -/
def farMainCmd : EditableCmd :=
  { ctype := "M", x := some 0, y := some 7, originalX := some 0, originalY := some 7
    x1 := none, y1 := none, originalX1 := none, originalY1 := none
    x2 := none, y2 := none, originalX2 := none, originalY2 := none }

/-- An `L` command whose main point maps to screen distance 1 from the
origin — the nearest point within the radius. -/
def nearMainCmd : EditableCmd :=
  { ctype := "L", x := some 0, y := some 1, originalX := some 0, originalY := some 1
    x1 := none, y1 := none, originalX1 := none, originalY1 := none
    x2 := none, y2 := none, originalX2 := none, originalY2 := none }

/-- A full cubic command with both control points present. -/
def sampleCCmd : EditableCmd :=
  { ctype := "C", x := some 1, y := some 2, originalX := some 1, originalY := some 2
    x1 := some 11, y1 := some 12, originalX1 := some 11, originalY1 := some 12
    x2 := some 3, y2 := some 4, originalX2 := some 3, originalY2 := some 4 }

/-- A successor cubic command whose first control point is present. -/
def sampleNextCmd : EditableCmd :=
  { ctype := "C", x := some 21, y := some 22, originalX := some 21, originalY := some 22
    x1 := some 5, y1 := some 6, originalX1 := some 5, originalY1 := some 6
    x2 := some 23, y2 := some 24, originalX2 := some 23, originalY2 := some 24 }

/-- An editor state mid-drag on the main point of command 0. -/
def sampleDragState : EditorState :=
  { showControlPoints := true, isDragging := true, dragPoint := some ⟨0, .main⟩
    editableCommands := [sampleCCmd, sampleNextCmd], tf := tfId
    controlPointRadius := 8 }

/-- An editor state mid-drag on the first control point of command 0. -/
def sampleCp1State : EditorState :=
  { showControlPoints := true, isDragging := true, dragPoint := some ⟨0, .cp1⟩
    editableCommands := [sampleCCmd, sampleNextCmd], tf := tfId
    controlPointRadius := 8 }

/-- The freshly constructed editor with one parsed command. -/
def sampleHitState : EditorState :=
  { initialState 8 with editableCommands := [sampleMainCmd] }

/-- A well-formed `M` path command. -/
def samplePathM : PathCommand :=
  { ctype := "M", x := some 1, y := some 2, x1 := none, y1 := none, x2 := none, y2 := none }

/-- A well-formed `Q` path command. -/
def samplePathQ : PathCommand :=
  { ctype := "Q", x := some 3, y := some 4, x1 := some 5, y1 := some 6, x2 := none, y2 := none }

/-- A well-formed `C` path command. -/
def samplePathC : PathCommand :=
  { ctype := "C", x := some 7, y := some 8, x1 := some 9, y1 := some 10
    x2 := some 11, y2 := some 12 }

/-- A well-formed `Z` path command: no coordinates at all. -/
def samplePathZ : PathCommand :=
  { ctype := "Z", x := none, y := none, x1 := none, y1 := none, x2 := none, y2 := none }

/-! ## Helper lemmas -/

/-- Overwriting an entry with a value of equal shadow fields does not change
the list of shadow-field tuples. -/
lemma map_orig_set (c' : EditableCmd) {cmds : List EditableCmd} {i : ℕ}
    {cmd : EditableCmd} (h : cmds[i]? = some cmd)
    (ho : origFields c' = origFields cmd) :
    (cmds.set i c').map origFields = cmds.map origFields := by
  rw [List.map_set, ho]
  have hmem : (cmds.map origFields)[i]? = some (origFields cmd) := by
    rw [List.getElem?_map, h, Option.map_some']
  obtain ⟨hi', hget'⟩ := List.getElem?_eq_some_iff.mp hmem
  apply List.ext_getElem?
  intro n
  by_cases hn : n = i
  · subst hn
    rw [List.getElem?_set_self hi', hmem]
  · rw [List.getElem?_set_ne (fun hh => hn hh.symm)]

/-- `dragCp1` leaves every shadow field unchanged. -/
lemma map_orig_dragCp1 (cmds : List EditableCmd) (i : ℕ) (wx wy : ℚ) :
    (dragCp1 cmds i wx wy).map origFields = cmds.map origFields := by
  unfold dragCp1
  cases h : cmds[i]? with
  | none => rfl
  | some cmd => exact map_orig_set { cmd with x1 := some wx, y1 := some wy } h rfl

/-- `dragCp2` leaves every shadow field unchanged. -/
lemma map_orig_dragCp2 (cmds : List EditableCmd) (i : ℕ) (wx wy : ℚ) :
    (dragCp2 cmds i wx wy).map origFields = cmds.map origFields := by
  unfold dragCp2
  cases h : cmds[i]? with
  | none => rfl
  | some cmd => exact map_orig_set { cmd with x2 := some wx, y2 := some wy } h rfl

/-- `dragMainSimple` leaves every shadow field unchanged. -/
lemma map_orig_dragMainSimple (cmds : List EditableCmd) (i : ℕ) (wx wy : ℚ) :
    (dragMainSimple cmds i wx wy).map origFields = cmds.map origFields := by
  unfold dragMainSimple
  cases h : cmds[i]? with
  | none => rfl
  | some cmd => exact map_orig_set (moveMain cmd wx wy) h rfl

/-- `dragMainProp` leaves every shadow field unchanged. -/
lemma map_orig_dragMainProp (cmds : List EditableCmd) (i : ℕ) (wx wy : ℚ) :
    (dragMainProp cmds i wx wy).map origFields = cmds.map origFields := by
  unfold dragMainProp
  cases h : cmds[i]? with
  | none => rfl
  | some cmd =>
    dsimp only
    have horig2 : origFields
        (if cmd.x2.isSome then
          shiftCp2 (moveMain cmd wx wy) (wx - cmd.x.getD 0) (wy - cmd.y.getD 0)
         else moveMain cmd wx wy) = origFields cmd := by
      by_cases hx2 : cmd.x2.isSome <;> simp only [hx2, if_true, if_false] <;> rfl
    revert horig2
    generalize (if cmd.x2.isSome then
        shiftCp2 (moveMain cmd wx wy) (wx - cmd.x.getD 0) (wy - cmd.y.getD 0)
      else moveMain cmd wx wy) = cmd2
    intro horig2
    have h1 : (cmds.set i cmd2).map origFields = cmds.map origFields :=
      map_orig_set cmd2 h horig2
    by_cases hlen : i < cmds.length - 1
    · rw [if_pos hlen]
      cases h2 : (cmds.set i cmd2)[i + 1]? with
      | none => exact h1
      | some nextCmd =>
        dsimp only
        by_cases hx1 : nextCmd.x1.isSome
        · rw [if_pos hx1]
          exact (map_orig_set
            (shiftCp1 nextCmd (wx - cmd.x.getD 0) (wy - cmd.y.getD 0)) h2 rfl).trans h1
        · rw [if_neg hx1]
          exact h1
    · rw [if_neg hlen]
      exact h1

/-- One `onMouseMoveProp` step preserves the shadow fields. -/
lemma map_orig_moveProp (s : EditorState) (mx my : ℚ) :
    (onMouseMoveProp s mx my).editableCommands.map origFields =
      s.editableCommands.map origFields := by
  unfold onMouseMoveProp
  cases hD : s.isDragging with
  | false => rfl
  | true =>
    cases hP : s.dragPoint with
    | none => rfl
    | some dp =>
      obtain ⟨idx, pt⟩ := dp
      cases pt with
      | main => exact map_orig_dragMainProp ..
      | cp1 => exact map_orig_dragCp1 ..
      | cp2 => exact map_orig_dragCp2 ..

/-- One `onMouseMoveSimple` step preserves the shadow fields. -/
lemma map_orig_moveSimple (s : EditorState) (mx my : ℚ) :
    (onMouseMoveSimple s mx my).editableCommands.map origFields =
      s.editableCommands.map origFields := by
  unfold onMouseMoveSimple
  cases hD : s.isDragging with
  | false => rfl
  | true =>
    cases hP : s.dragPoint with
    | none => rfl
    | some dp =>
      obtain ⟨idx, pt⟩ := dp
      cases pt with
      | main => exact map_orig_dragMainSimple ..
      | cp1 => exact map_orig_dragCp1 ..
      | cp2 => exact map_orig_dragCp2 ..

/-! ## Claims -/

/-- C4: for every transform state with non-zero scale,
`inverseTransformPoint ∘ transformPoint` is the identity on font-unit
coordinates, and `transformPoint ∘ inverseTransformPoint` is the identity on
screen coordinates. -/
theorem transform_roundTrip (tf : Transform) (h : tf.scale ≠ 0) (x y sx sy : ℚ) :
    inverseTransformPoint tf (transformPoint tf x y).1 (transformPoint tf x y).2 = (x, y) ∧
    transformPoint tf (inverseTransformPoint tf sx sy).1 (inverseTransformPoint tf sx sy).2
      = (sx, sy) := by
  unfold transformPoint inverseTransformPoint
  refine ⟨?_, ?_⟩ <;> simp only [Prod.mk.injEq] <;> constructor <;> field_simp

/-- Witness for C4 at the identity-like transform `scale = 2`,
`offset = (3, 5)`. -/
theorem transform_roundTrip_witness :
    (Transform.mk 2 3 5).scale ≠ 0 ∧
    (inverseTransformPoint (Transform.mk 2 3 5)
        (transformPoint (Transform.mk 2 3 5) 7 11).1
        (transformPoint (Transform.mk 2 3 5) 7 11).2 = (7, 11) ∧
      transformPoint (Transform.mk 2 3 5)
        (inverseTransformPoint (Transform.mk 2 3 5) 13 17).1
        (inverseTransformPoint (Transform.mk 2 3 5) 13 17).2 = (13, 17)) :=
  ⟨by decide, transform_roundTrip (Transform.mk 2 3 5) (by decide) 7 11 13 17⟩

/-- C3: every command produced by `resetGlyph` has its current coordinates
equal to its shadow copy: `x = originalX`, `y = originalY`, and the
control-point pairs agree with their originals whenever those are present.
This holds for every input list, hence after any preceding drag mutations. -/
theorem resetGlyph_restores (cmds : List EditableCmd) (c : EditableCmd)
    (hc : c ∈ resetGlyph cmds) :
    c.x = c.originalX ∧ c.y = c.originalY ∧
    (c.originalX1.isSome → c.x1 = c.originalX1 ∧ c.y1 = c.originalY1) ∧
    (c.originalX2.isSome → c.x2 = c.originalX2 ∧ c.y2 = c.originalY2) := by
  rw [resetGlyph, List.mem_map] at hc
  obtain ⟨b, _, rfl⟩ := hc
  unfold resetCommand
  by_cases h1 : b.originalX1.isSome <;> by_cases h2 : b.originalX2.isSome <;>
    simp [h1, h2]

/-- Witness for C3 on a concrete dragged `C` command. -/
theorem resetGlyph_restores_witness :
    (resetCommand
        { ctype := "C", x := some 1, y := some 2, originalX := some 10, originalY := some 20
          x1 := some 3, y1 := some 4, originalX1 := some 30, originalY1 := some 40
          x2 := some 5, y2 := some 6, originalX2 := some 50, originalY2 := some 60 } ∈
      resetGlyph
        [{ ctype := "C", x := some 1, y := some 2, originalX := some 10, originalY := some 20
           x1 := some 3, y1 := some 4, originalX1 := some 30, originalY1 := some 40
           x2 := some 5, y2 := some 6, originalX2 := some 50, originalY2 := some 60 }]) ∧
    ((resetCommand
        { ctype := "C", x := some 1, y := some 2, originalX := some 10, originalY := some 20
          x1 := some 3, y1 := some 4, originalX1 := some 30, originalY1 := some 40
          x2 := some 5, y2 := some 6, originalX2 := some 50, originalY2 := some 60 }).x =
      (resetCommand
        { ctype := "C", x := some 1, y := some 2, originalX := some 10, originalY := some 20
          x1 := some 3, y1 := some 4, originalX1 := some 30, originalY1 := some 40
          x2 := some 5, y2 := some 6, originalX2 := some 50, originalY2 := some 60 }).originalX) :=
  ⟨by decide,
    (resetGlyph_restores
      [{ ctype := "C", x := some 1, y := some 2, originalX := some 10, originalY := some 20
         x1 := some 3, y1 := some 4, originalX1 := some 30, originalY1 := some 40
         x2 := some 5, y2 := some 6, originalX2 := some 50, originalY2 := some 60 }]
      (resetCommand
        { ctype := "C", x := some 1, y := some 2, originalX := some 10, originalY := some 20
          x1 := some 3, y1 := some 4, originalX1 := some 30, originalY1 := some 40
          x2 := some 5, y2 := some 6, originalX2 := some 50, originalY2 := some 60 })
      (by decide)).1⟩

/-- C6: when the awaited font load fails, `setup` only logs and renders the
static fallback: the editable command list stays empty, and none of the other
setup steps (parsing, scale computation, controls, event listeners, normal
render) is performed — in particular no retry of the load occurs, the failure
path being straight-line. -/
theorem setup_loadFailure (e : String) :
    (setupAfterLoad (.error e)).2 = [] ∧
    SetupStep.renderFallback ∈ (setupAfterLoad (.error e)).1 ∧
    SetupStep.setupEventListeners ∉ (setupAfterLoad (.error e)).1 ∧
    SetupStep.setupControls ∉ (setupAfterLoad (.error e)).1 ∧
    SetupStep.parseGlyph ∉ (setupAfterLoad (.error e)).1 ∧
    SetupStep.calculateScale ∉ (setupAfterLoad (.error e)).1 ∧
    SetupStep.render ∉ (setupAfterLoad (.error e)).1 := by
  simp [setupAfterLoad]

/-- C7: any sequence of `onMouseMove` drag events — through either copy of the
handler — leaves every command's shadow fields (`originalX`, `originalY`,
`originalX1`, `originalY1`, `originalX2`, `originalY2`) exactly as they were. -/
theorem drag_preserves_originals (s : EditorState) (evs : List (ℚ × ℚ)) :
    (runMovesProp s evs).editableCommands.map origFields =
      s.editableCommands.map origFields ∧
    (runMovesSimple s evs).editableCommands.map origFields =
      s.editableCommands.map origFields := by
  constructor
  · induction evs generalizing s with
    | nil => rfl
    | cons e evs ih =>
      rw [runMovesProp, List.foldl_cons]
      exact (ih (onMouseMoveProp s e.1 e.2)).trans (map_orig_moveProp s e.1 e.2)
  · induction evs generalizing s with
    | nil => rfl
    | cons e evs ih =>
      rw [runMovesSimple, List.foldl_cons]
      exact (ih (onMouseMoveSimple s e.1 e.2)).trans (map_orig_moveSimple s e.1 e.2)

/-- `dragMainProp` rewrites the dragged command to the main-moved,
cp2-shifted command. -/
lemma dragMainProp_get_self (cmds : List EditableCmd) (i : ℕ) (wx wy : ℚ)
    (cmd : EditableCmd) (hc : cmds[i]? = some cmd) :
    (dragMainProp cmds i wx wy)[i]? = some
      (if cmd.x2.isSome then
        shiftCp2 (moveMain cmd wx wy) (wx - cmd.x.getD 0) (wy - cmd.y.getD 0)
       else moveMain cmd wx wy) := by
  have hi : i < cmds.length := (List.getElem?_eq_some_iff.mp hc).1
  unfold dragMainProp
  rw [hc]
  dsimp only
  generalize (if cmd.x2.isSome then
      shiftCp2 (moveMain cmd wx wy) (wx - cmd.x.getD 0) (wy - cmd.y.getD 0)
    else moveMain cmd wx wy) = cmd2
  by_cases hlen : i < cmds.length - 1
  · rw [if_pos hlen]
    cases h2 : (cmds.set i cmd2)[i + 1]? with
    | none => exact List.getElem?_set_self hi
    | some nextCmd =>
      dsimp only
      by_cases hx1 : nextCmd.x1.isSome
      · rw [if_pos hx1, List.getElem?_set_ne (by omega)]
        exact List.getElem?_set_self hi
      · rw [if_neg hx1]
        exact List.getElem?_set_self hi
  · rw [if_neg hlen]
    exact List.getElem?_set_self hi

/-- `dragMainProp` shifts the next command's first control point when it is
present. -/
lemma dragMainProp_get_next (cmds : List EditableCmd) (i : ℕ) (wx wy : ℚ)
    (cmd nc : EditableCmd) (hc : cmds[i]? = some cmd)
    (hn : cmds[i + 1]? = some nc) (hx1 : nc.x1.isSome = true) :
    (dragMainProp cmds i wx wy)[i + 1]? =
      some (shiftCp1 nc (wx - cmd.x.getD 0) (wy - cmd.y.getD 0)) := by
  have hi1 : i + 1 < cmds.length := (List.getElem?_eq_some_iff.mp hn).1
  unfold dragMainProp
  rw [hc]
  dsimp only
  generalize (if cmd.x2.isSome then
      shiftCp2 (moveMain cmd wx wy) (wx - cmd.x.getD 0) (wy - cmd.y.getD 0)
    else moveMain cmd wx wy) = cmd2
  have hlen : i < cmds.length - 1 := by omega
  rw [if_pos hlen]
  have h2 : (cmds.set i cmd2)[i + 1]? = some nc := by
    rw [List.getElem?_set_ne (by omega)]
    exact hn
  rw [h2]
  dsimp only
  rw [if_pos hx1]
  exact List.getElem?_set_self (by simpa using hi1)

/-- Both `onMouseMove` copies leave `isDragging` and `dragPoint` unchanged. -/
lemma onMouseMove_flags (s : EditorState) (mx my : ℚ) :
    (onMouseMoveProp s mx my).isDragging = s.isDragging ∧
    (onMouseMoveProp s mx my).dragPoint = s.dragPoint ∧
    (onMouseMoveSimple s mx my).isDragging = s.isDragging ∧
    (onMouseMoveSimple s mx my).dragPoint = s.dragPoint := by
  unfold onMouseMoveProp onMouseMoveSimple
  cases hD : s.isDragging with
  | false =>
    cases hP : s.dragPoint with
    | none => refine ⟨?_, ?_, ?_, ?_⟩ <;> first | rfl | assumption
    | some dp =>
      obtain ⟨idx, pt⟩ := dp
      cases pt <;> (refine ⟨?_, ?_, ?_, ?_⟩ <;> first | rfl | assumption)
  | true =>
    cases hP : s.dragPoint with
    | none => refine ⟨?_, ?_, ?_, ?_⟩ <;> first | rfl | assumption
    | some dp =>
      obtain ⟨idx, pt⟩ := dp
      cases pt <;> exact ⟨rfl, rfl, rfl, rfl⟩

/-- C1: while a drag of a main point is in progress
(`isDragging ∧ dragPoint.pointType = 'main'`), `onMouseMove` of the
propagating editor copy moves the main point to the mouse's font-unit
position — a delta of `(dx, dy)` — and moves the attached control points by
that same delta: the command's own second control point (when present), and
the next command's first control point (when present). -/
theorem mainDrag_moves_attached_cps (s : EditorState) (mx my : ℚ) (i : ℕ)
    (cmd : EditableCmd) (px py : ℚ)
    (hd : s.isDragging = true) (hp : s.dragPoint = some ⟨i, .main⟩)
    (hc : s.editableCommands[i]? = some cmd)
    (hx : cmd.x = some px) (hy : cmd.y = some py) :
    (∃ cmd', (onMouseMoveProp s mx my).editableCommands[i]? = some cmd' ∧
      cmd'.x = some (px + ((inverseTransformPoint s.tf mx my).1 - px)) ∧
      cmd'.y = some (py + ((inverseTransformPoint s.tf mx my).2 - py)) ∧
      (∀ a b : ℚ, cmd.x2 = some a → cmd.y2 = some b →
        cmd'.x2 = some (a + ((inverseTransformPoint s.tf mx my).1 - px)) ∧
        cmd'.y2 = some (b + ((inverseTransformPoint s.tf mx my).2 - py)))) ∧
    (∀ nc : EditableCmd, ∀ a b : ℚ, s.editableCommands[i + 1]? = some nc →
      nc.x1 = some a → nc.y1 = some b →
      ∃ nc', (onMouseMoveProp s mx my).editableCommands[i + 1]? = some nc' ∧
        nc'.x1 = some (a + ((inverseTransformPoint s.tf mx my).1 - px)) ∧
        nc'.y1 = some (b + ((inverseTransformPoint s.tf mx my).2 - py))) := by
  have hcmds : (onMouseMoveProp s mx my).editableCommands =
      dragMainProp s.editableCommands i
        (inverseTransformPoint s.tf mx my).1 (inverseTransformPoint s.tf mx my).2 := by
    unfold onMouseMoveProp
    rw [hd, hp]
  constructor
  · refine ⟨_, by rw [hcmds]; exact dragMainProp_get_self _ _ _ _ _ hc, ?_, ?_, ?_⟩
    · have : px + ((inverseTransformPoint s.tf mx my).1 - px) =
          (inverseTransformPoint s.tf mx my).1 := by ring
      rw [this]
      by_cases hx2 : cmd.x2.isSome <;> simp [hx2, shiftCp2, moveMain]
    · have : py + ((inverseTransformPoint s.tf mx my).2 - py) =
          (inverseTransformPoint s.tf mx my).2 := by ring
      rw [this]
      by_cases hx2 : cmd.x2.isSome <;> simp [hx2, shiftCp2, moveMain]
    · intro a b ha hb
      have hx2 : cmd.x2.isSome = true := by rw [ha]; rfl
      constructor <;> simp [hx2, shiftCp2, moveMain, ha, hb, hx, hy]
  · intro nc a b hn ha hb
    have hx1 : nc.x1.isSome = true := by rw [ha]; rfl
    refine ⟨_, by rw [hcmds]; exact dragMainProp_get_next _ _ _ _ _ _ hc hn hx1, ?_, ?_⟩
    · simp [shiftCp1, ha, hx]
    · simp [shiftCp1, hb, hx, hy]

/-- C8: while a drag of a control point (`'cp1'` or `'cp2'`) is in progress,
both `onMouseMove` copies rewrite exactly that control point's coordinate pair
on the dragged command and nothing else: the updated list is the original list
with only entry `i` replaced, and the replacement differs from the old command
only in that pair. -/
theorem cpDrag_updates_only_that_cp (s : EditorState) (mx my : ℚ) (i : ℕ)
    (t : PointType) (cmd : EditableCmd)
    (hd : s.isDragging = true) (hp : s.dragPoint = some ⟨i, t⟩)
    (hc : s.editableCommands[i]? = some cmd) :
    (t = .cp1 →
      (onMouseMoveProp s mx my).editableCommands =
        s.editableCommands.set i
          { cmd with x1 := some (inverseTransformPoint s.tf mx my).1
                     y1 := some (inverseTransformPoint s.tf mx my).2 } ∧
      (onMouseMoveSimple s mx my).editableCommands =
        s.editableCommands.set i
          { cmd with x1 := some (inverseTransformPoint s.tf mx my).1
                     y1 := some (inverseTransformPoint s.tf mx my).2 }) ∧
    (t = .cp2 →
      (onMouseMoveProp s mx my).editableCommands =
        s.editableCommands.set i
          { cmd with x2 := some (inverseTransformPoint s.tf mx my).1
                     y2 := some (inverseTransformPoint s.tf mx my).2 } ∧
      (onMouseMoveSimple s mx my).editableCommands =
        s.editableCommands.set i
          { cmd with x2 := some (inverseTransformPoint s.tf mx my).1
                     y2 := some (inverseTransformPoint s.tf mx my).2 }) := by
  constructor <;> rintro rfl <;> constructor
  · unfold onMouseMoveProp
    rw [hd, hp]
    dsimp only
    unfold dragCp1
    rw [hc]
  · unfold onMouseMoveSimple
    rw [hd, hp]
    dsimp only
    unfold dragCp1
    rw [hc]
  · unfold onMouseMoveProp
    rw [hd, hp]
    dsimp only
    unfold dragCp2
    rw [hc]
  · unfold onMouseMoveSimple
    rw [hd, hp]
    dsimp only
    unfold dragCp2
    rw [hc]

/-- Witness for C1: dragging the main point of `sampleCCmd` to font-unit
position `(10, -20)` moves the main point and both attached control points by
the delta `(9, -22)`. -/
theorem mainDrag_moves_attached_cps_witness :
    (sampleDragState.isDragging = true ∧
      sampleDragState.dragPoint = some ⟨0, .main⟩ ∧
      sampleDragState.editableCommands[0]? = some sampleCCmd ∧
      sampleCCmd.x = some 1 ∧ sampleCCmd.y = some 2) ∧
    ((∃ cmd', (onMouseMoveProp sampleDragState 10 20).editableCommands[0]? = some cmd' ∧
      cmd'.x = some (1 + ((inverseTransformPoint sampleDragState.tf 10 20).1 - 1)) ∧
      cmd'.y = some (2 + ((inverseTransformPoint sampleDragState.tf 10 20).2 - 2)) ∧
      (∀ a b : ℚ, sampleCCmd.x2 = some a → sampleCCmd.y2 = some b →
        cmd'.x2 = some (a + ((inverseTransformPoint sampleDragState.tf 10 20).1 - 1)) ∧
        cmd'.y2 = some (b + ((inverseTransformPoint sampleDragState.tf 10 20).2 - 2)))) ∧
    (∀ nc : EditableCmd, ∀ a b : ℚ,
      sampleDragState.editableCommands[0 + 1]? = some nc →
      nc.x1 = some a → nc.y1 = some b →
      ∃ nc', (onMouseMoveProp sampleDragState 10 20).editableCommands[0 + 1]? = some nc' ∧
        nc'.x1 = some (a + ((inverseTransformPoint sampleDragState.tf 10 20).1 - 1)) ∧
        nc'.y1 = some (b + ((inverseTransformPoint sampleDragState.tf 10 20).2 - 2)))) :=
  ⟨⟨rfl, rfl, by decide, rfl, rfl⟩,
    mainDrag_moves_attached_cps sampleDragState 10 20 0 sampleCCmd 1 2
      rfl rfl (by decide) rfl rfl⟩

/-- Witness for C8: dragging the first control point of `sampleCCmd` rewrites
exactly that pair. -/
theorem cpDrag_updates_only_that_cp_witness :
    (sampleCp1State.isDragging = true ∧
      sampleCp1State.dragPoint = some ⟨0, .cp1⟩ ∧
      sampleCp1State.editableCommands[0]? = some sampleCCmd) ∧
    ((PointType.cp1 = .cp1 →
      (onMouseMoveProp sampleCp1State 10 20).editableCommands =
        sampleCp1State.editableCommands.set 0
          { sampleCCmd with
              x1 := some (inverseTransformPoint sampleCp1State.tf 10 20).1
              y1 := some (inverseTransformPoint sampleCp1State.tf 10 20).2 } ∧
      (onMouseMoveSimple sampleCp1State 10 20).editableCommands =
        sampleCp1State.editableCommands.set 0
          { sampleCCmd with
              x1 := some (inverseTransformPoint sampleCp1State.tf 10 20).1
              y1 := some (inverseTransformPoint sampleCp1State.tf 10 20).2 }) ∧
    (PointType.cp1 = .cp2 →
      (onMouseMoveProp sampleCp1State 10 20).editableCommands =
        sampleCp1State.editableCommands.set 0
          { sampleCCmd with
              x2 := some (inverseTransformPoint sampleCp1State.tf 10 20).1
              y2 := some (inverseTransformPoint sampleCp1State.tf 10 20).2 } ∧
      (onMouseMoveSimple sampleCp1State 10 20).editableCommands =
        sampleCp1State.editableCommands.set 0
          { sampleCCmd with
              x2 := some (inverseTransformPoint sampleCp1State.tf 10 20).1
              y2 := some (inverseTransformPoint sampleCp1State.tf 10 20).2 })) :=
  ⟨⟨rfl, rfl, by decide⟩,
    cpDrag_updates_only_that_cp sampleCp1State 10 20 0 .cp1 sampleCCmd
      rfl rfl (by decide)⟩

/-- `onMouseDown` either leaves the state alone (controls hidden), stores a
successful hit and starts dragging, or stores a missed hit (null) while
leaving `isDragging` untouched. -/
lemma onMouseDown_spec (s : EditorState) (mx my : ℚ) :
    onMouseDown s mx my = s ∨
    (∃ dp, findControlPoint s.tf s.controlPointRadius s.editableCommands mx my = some dp ∧
      onMouseDown s mx my = { s with dragPoint := some dp, isDragging := true }) ∨
    (findControlPoint s.tf s.controlPointRadius s.editableCommands mx my = none ∧
      onMouseDown s mx my = { s with dragPoint := none }) := by
  unfold onMouseDown
  by_cases hb : (!s.showControlPoints) = true
  · rw [if_pos hb]
    exact Or.inl rfl
  · rw [if_neg hb]
    dsimp only
    cases hdp : findControlPoint s.tf s.controlPointRadius s.editableCommands mx my with
    | none => exact Or.inr (Or.inr ⟨rfl, by simp⟩)
    | some dp => exact Or.inr (Or.inl ⟨dp, rfl, by simp⟩)

/-- C9 (amended): the invariant `isDragging → dragPoint ≠ null` holds in the
constructor state and is preserved by both `onMouseMove` copies, by
`onMouseUp`, and by `onMouseDown` from any non-dragging state.  (It is NOT
preserved by `onMouseDown` from a dragging state when the hit test misses —
see the accompanying counterexample.) -/
theorem dragInv_preserved (r : ℚ) (s : EditorState) (mx my : ℚ) (hinv : dragInv s) :
    dragInv (initialState r) ∧
    dragInv (onMouseMoveProp s mx my) ∧
    dragInv (onMouseMoveSimple s mx my) ∧
    dragInv (onMouseUp s) ∧
    (s.isDragging = false → dragInv (onMouseDown s mx my)) := by
  refine ⟨?_, ?_, ?_, ?_, ?_⟩
  · intro h
    simp [initialState] at h
  · intro h
    rw [(onMouseMove_flags s mx my).1] at h
    rw [(onMouseMove_flags s mx my).2.1]
    exact hinv h
  · intro h
    rw [(onMouseMove_flags s mx my).2.2.1] at h
    rw [(onMouseMove_flags s mx my).2.2.2]
    exact hinv h
  · intro h
    simp [onMouseUp] at h
  · intro hfalse
    rcases onMouseDown_spec s mx my with h | ⟨dp, _, h⟩ | ⟨_, h⟩
    · rw [h]
      intro hd
      rw [hfalse] at hd
      exact Bool.noConfusion hd
    · rw [h]
      intro _
      simp
    · rw [h]
      intro hd
      simp only at hd
      rw [hfalse] at hd
      exact Bool.noConfusion hd

/-- Witness for C9's amended preservation statement at the constructor
state. -/
theorem dragInv_preserved_witness :
    dragInv (initialState 8) ∧
    (dragInv (initialState 8) ∧
      dragInv (onMouseMoveProp (initialState 8) 0 0) ∧
      dragInv (onMouseMoveSimple (initialState 8) 0 0) ∧
      dragInv (onMouseUp (initialState 8)) ∧
      ((initialState 8).isDragging = false →
        dragInv (onMouseDown (initialState 8) 0 0))) :=
  ⟨by decide, dragInv_preserved 8 (initialState 8) 0 0 (by decide)⟩

/-- Counterexample for C9 as stated: from a legitimately reached dragging
state, a second `onMouseDown` whose hit test misses nulls `dragPoint` but
leaves `isDragging` true, violating the invariant. -/
theorem dragInv_broken_by_second_mouseDown :
    dragInv (onMouseDown sampleHitState 0 0) ∧
    (onMouseDown sampleHitState 0 0).isDragging = true ∧
    ¬ dragInv (onMouseDown (onMouseDown sampleHitState 0 0) 100 100) := by
  have hfind1 : findControlPoint sampleHitState.tf sampleHitState.controlPointRadius
      sampleHitState.editableCommands 0 0 = some ⟨0, .main⟩ := by
    norm_num [sampleHitState, initialState, tfId, sampleMainCmd, findControlPoint,
      findFrom, hitTest, transformPoint]
  have h1 : onMouseDown sampleHitState 0 0 =
      { sampleHitState with dragPoint := some ⟨0, .main⟩, isDragging := true } := by
    unfold onMouseDown
    rw [if_neg (by simp [sampleHitState, initialState])]
    dsimp only
    rw [hfind1]
    simp
  have hfind2 : findControlPoint sampleHitState.tf sampleHitState.controlPointRadius
      sampleHitState.editableCommands 100 100 = none := by
    norm_num [sampleHitState, initialState, tfId, sampleMainCmd, findControlPoint,
      findFrom, hitTest, transformPoint]
  have h2 : onMouseDown { sampleHitState with
      dragPoint := some ⟨0, .main⟩, isDragging := true } 100 100 =
      { sampleHitState with dragPoint := none, isDragging := true } := by
    unfold onMouseDown
    rw [if_neg (by simp [sampleHitState, initialState])]
    dsimp only
    rw [hfind2]
    simp
  rw [h1, h2]
  refine ⟨fun _ hc => Option.noConfusion hc, rfl, fun hinv => (hinv rfl) rfl⟩

/-- `findFrom` returns `none` exactly when no point of any scanned command is
within the radius. -/
lemma findFrom_eq_none_iff (tf : Transform) (r mx my : ℚ)
    (cmds : List EditableCmd) :
    ∀ i : ℕ, (findFrom tf r mx my i cmds = none ↔
      ∀ cmd ∈ cmds, cmdHit tf r mx my cmd = false) := by
  induction cmds with
  | nil => intro i; simp [findFrom]
  | cons c rest ih =>
    intro i
    rw [findFrom]
    by_cases h1 : hitTest tf r mx my c.x c.y
    · simp [h1, cmdHit, hitsPt, pointCoords]
    · by_cases h2 : hitTest tf r mx my c.x1 c.y1
      · simp [h1, h2, cmdHit, hitsPt, pointCoords]
      · by_cases h3 : hitTest tf r mx my c.x2 c.y2
        · simp [h1, h2, h3, cmdHit, hitsPt, pointCoords]
        · simp [h1, h2, h3, cmdHit, hitsPt, pointCoords, ih]

/-- When `findFrom` returns a hit, that hit is the first point in scan order
(commands in order; inside a command `main`, then `cp1`, then `cp2`) whose
screen position is within the radius. -/
lemma findFrom_some_spec (tf : Transform) (r mx my : ℚ)
    (cmds : List EditableCmd) :
    ∀ (i : ℕ) (dp : DragPoint), findFrom tf r mx my i cmds = some dp →
      ∃ j cmd, dp.cmdIndex = i + j ∧ cmds[j]? = some cmd ∧
        hitsPt tf r mx my cmd dp.pointType = true ∧
        (∀ k, k < j → ∀ c₀, cmds[k]? = some c₀ → cmdHit tf r mx my c₀ = false) ∧
        (∀ u, ptRank u < ptRank dp.pointType → hitsPt tf r mx my cmd u = false) := by
  induction cmds with
  | nil => intro i dp h; simp [findFrom] at h
  | cons c rest ih =>
    intro i dp h
    rw [findFrom] at h
    by_cases h1 : hitTest tf r mx my c.x c.y
    · rw [if_pos h1] at h
      obtain rfl := (Option.some.inj h).symm
      refine ⟨0, c, by simp, by simp, by simpa [hitsPt, pointCoords] using h1, ?_, ?_⟩
      · intro k hk
        exact absurd hk (by omega)
      · intro u hu
        cases u <;> simp [ptRank] at hu
    · rw [if_neg h1] at h
      by_cases h2 : hitTest tf r mx my c.x1 c.y1
      · rw [if_pos h2] at h
        obtain rfl := (Option.some.inj h).symm
        refine ⟨0, c, by simp, by simp, by simpa [hitsPt, pointCoords] using h2, ?_, ?_⟩
        · intro k hk
          exact absurd hk (by omega)
        · intro u hu
          cases u <;> simp [ptRank] at hu ⊢
          simp [hitsPt, pointCoords, h1]
      · rw [if_neg h2] at h
        by_cases h3 : hitTest tf r mx my c.x2 c.y2
        · rw [if_pos h3] at h
          obtain rfl := (Option.some.inj h).symm
          refine ⟨0, c, by simp, by simp, by simpa [hitsPt, pointCoords] using h3, ?_, ?_⟩
          · intro k hk
            exact absurd hk (by omega)
          · intro u hu
            cases u <;> simp [ptRank] at hu ⊢
            · simp [hitsPt, pointCoords, h1]
            · simp [hitsPt, pointCoords, h2]
        · rw [if_neg h3] at h
          obtain ⟨j, cmd, hidx, hget, hhit, hmin, hrank⟩ := ih (i + 1) dp h
          refine ⟨j + 1, cmd, by omega, by simpa using hget, hhit, ?_, hrank⟩
          intro k hk c₀ hck
          cases k with
          | zero =>
            obtain rfl := (Option.some.inj (by simpa using hck)).symm
            simp [cmdHit, hitsPt, pointCoords, h1, h2, h3]
          | succ k' =>
            exact hmin k' (by omega) c₀ (by simpa using hck)

/-- C2 (amended): `findControlPoint` returns null exactly when no point
(`main`, `cp1` or `cp2`) of any command lies within `controlPointRadius`
pixels of the mouse in screen space; otherwise it returns the FIRST such point
in scan order (command order, and inside a command `main` before `cp1` before
`cp2`) — which need not be the nearest one. -/
theorem findControlPoint_spec (tf : Transform) (r mx my : ℚ)
    (cmds : List EditableCmd) :
    (findControlPoint tf r cmds mx my = none ↔
      ∀ cmd ∈ cmds, cmdHit tf r mx my cmd = false) ∧
    (∀ dp, findControlPoint tf r cmds mx my = some dp →
      ∃ cmd, cmds[dp.cmdIndex]? = some cmd ∧
        hitsPt tf r mx my cmd dp.pointType = true ∧
        (∀ k, k < dp.cmdIndex → ∀ c₀, cmds[k]? = some c₀ →
          cmdHit tf r mx my c₀ = false) ∧
        (∀ u, ptRank u < ptRank dp.pointType →
          hitsPt tf r mx my cmd u = false)) := by
  constructor
  · exact findFrom_eq_none_iff tf r mx my cmds 0
  · intro dp h
    obtain ⟨j, cmd, hidx, hget, hhit, hmin, hrank⟩ :=
      findFrom_some_spec tf r mx my cmds 0 dp h
    have hj : j = dp.cmdIndex := by omega
    subst hj
    exact ⟨cmd, hget, hhit, hmin, hrank⟩

/-- Counterexample for C2 as stated: with the mouse at the screen origin, the
point of `nearMainCmd` (distance 1) is the nearest point within the 8-pixel
radius, but `findControlPoint` returns the earlier-scanned point of
`farMainCmd` (distance 7). -/
theorem findControlPoint_not_nearest :
    findControlPoint tfId 8 [farMainCmd, nearMainCmd] 0 0 = some ⟨0, .main⟩ ∧
    hitsPt tfId 8 0 0 nearMainCmd .main = true ∧
    ((0 - (transformPoint tfId 0 1).1) ^ 2 + (0 - (transformPoint tfId 0 1).2) ^ 2
      < (0 - (transformPoint tfId 0 7).1) ^ 2 + (0 - (transformPoint tfId 0 7).2) ^ 2) := by
  refine ⟨?_, ?_, ?_⟩
  · norm_num [findControlPoint, findFrom, hitTest, transformPoint, tfId,
      farMainCmd, nearMainCmd]
  · norm_num [hitsPt, pointCoords, hitTest, transformPoint, tfId, nearMainCmd]
  · norm_num [transformPoint, tfId]

/-- Witness for C2's characterisation at a concrete hit. -/
theorem findControlPoint_spec_witness :
    findControlPoint tfId 8 [farMainCmd, nearMainCmd] 0 0 = some ⟨0, .main⟩ ∧
    (∃ cmd, [farMainCmd, nearMainCmd][(0 : ℕ)]? = some cmd ∧
      hitsPt tfId 8 0 0 cmd PointType.main = true ∧
      (∀ k, k < 0 → ∀ c₀, [farMainCmd, nearMainCmd][k]? = some c₀ →
        cmdHit tfId 8 0 0 c₀ = false) ∧
      (∀ u, ptRank u < ptRank PointType.main →
        hitsPt tfId 8 0 0 cmd u = false)) :=
  ⟨by norm_num [findControlPoint, findFrom, hitTest, transformPoint, tfId,
      farMainCmd, nearMainCmd],
    (findControlPoint_spec tfId 8 0 0 [farMainCmd, nearMainCmd]).2 ⟨0, .main⟩
      (by norm_num [findControlPoint, findFrom, hitTest, transformPoint, tfId,
        farMainCmd, nearMainCmd])⟩

/-- Field-level description of `parseCommand`'s output. -/
lemma parseCommand_fields (b : PathCommand) :
    (parseCommand b).ctype = b.ctype ∧
    (parseCommand b).x = some (b.x.getD 0) ∧
    (parseCommand b).y = some (b.y.getD 0) ∧
    (parseCommand b).x1 = b.x1 ∧
    (parseCommand b).y1 = (if b.x1.isSome then b.y1 else none) ∧
    (parseCommand b).x2 = b.x2 ∧
    (parseCommand b).y2 = (if b.x2.isSome then b.y2 else none) := by
  unfold parseCommand
  by_cases h1 : b.x1.isSome <;> by_cases h2 : b.x2.isSome <;>
    [skip; rw [Option.not_isSome_iff_eq_none] at h2;
     rw [Option.not_isSome_iff_eq_none] at h1;
     rw [Option.not_isSome_iff_eq_none] at h1 h2] <;>
    simp [h1, h2]

/-- The shape `parseCommand` produces for a library command whose fields match
its type tag. -/
lemma parseCommand_shape (b : PathCommand)
    (hb : inputFieldsMatchType b = true) :
    fieldsMatchTypeAmended (parseCommand b) = true := by
  obtain ⟨hct, hx, hy, hx1, hy1, hx2, hy2⟩ := parseCommand_fields b
  unfold inputFieldsMatchType at hb
  unfold fieldsMatchTypeAmended
  rw [hct, hx, hy, hx1, hy1, hx2, hy2]
  by_cases hML : b.ctype = "M" ∨ b.ctype = "L"
  · rw [if_pos hML] at hb ⊢
    simp only [Bool.and_eq_true] at hb
    simp_all [Option.isNone_iff_eq_none]
  · rw [if_neg hML] at hb ⊢
    by_cases hQ : b.ctype = "Q"
    · rw [if_pos hQ] at hb ⊢
      simp only [Bool.and_eq_true] at hb
      simp_all [Option.isNone_iff_eq_none]
    · rw [if_neg hQ] at hb ⊢
      by_cases hC : b.ctype = "C"
      · rw [if_pos hC] at hb ⊢
        simp only [Bool.and_eq_true] at hb
        simp_all
      · rw [if_neg hC] at hb ⊢
        by_cases hZ : b.ctype = "Z"
        · rw [if_pos hZ] at hb ⊢
          simp only [Bool.and_eq_true] at hb
          simp_all [Option.isNone_iff_eq_none]
        · rw [if_neg hZ] at hb
          exact absurd hb (by simp)

/-- C5 (amended): for every path whose library commands carry exactly the
coordinates their type implies, every parsed editable command matches its
type's shape — `M`/`L` a main point only, `Q` additionally `cp1`, `C` both
control points, and `Z` no control points but a materialised `(0, 0)` main
point (the parser writes `x: cmd.x || 0` unconditionally). -/
theorem parseGlyphPath_fields_match (cmds : List PathCommand)
    (h : ∀ c ∈ cmds, inputFieldsMatchType c = true) :
    ∀ c ∈ parseGlyphPath cmds, fieldsMatchTypeAmended c = true := by
  intro c hc
  rw [parseGlyphPath, List.mem_map] at hc
  obtain ⟨b, hb, rfl⟩ := hc
  exact parseCommand_shape b (h b hb)

/-- Counterexample for C5 as stated: parsing a bare `Z` command produces an
editable command that still holds main-point fields (`x = y = 0`), so a `Z`
command does not hold "no coordinate fields at all". -/
theorem parseGlyphPath_z_keeps_main_point :
    (parseGlyphPath [samplePathZ]).all fieldsMatchTypeStrict = false ∧
    (parseGlyphPath [samplePathZ]).map (fun c => (c.ctype, c.x, c.y)) =
      [("Z", some 0, some 0)] := by
  constructor
  · simp [parseGlyphPath, parseCommand, samplePathZ, fieldsMatchTypeStrict]
  · simp [parseGlyphPath, parseCommand, samplePathZ]

/-- Witness for C5's amended statement on one command of each type. -/
theorem parseGlyphPath_fields_match_witness :
    (∀ c ∈ [samplePathM, samplePathQ, samplePathC, samplePathZ],
      inputFieldsMatchType c = true) ∧
    (∀ c ∈ parseGlyphPath [samplePathM, samplePathQ, samplePathC, samplePathZ],
      fieldsMatchTypeAmended c = true) :=
  ⟨by decide, parseGlyphPath_fields_match _ (by decide)⟩

/-- C10: after `calculateOptimalScale` for a bounding box of strictly positive
width and height and a canvas rectangle of strictly positive dimensions,
`transformPoint` maps the box's centre exactly to the canvas centre, and maps
all four corners into the central 80% band in each axis — hence strictly
inside the canvas rectangle. -/
theorem calculateOptimalScale_fits (b : BBox) (cw ch : ℚ)
    (hgw : 0 < b.x2 - b.x1) (hgh : 0 < b.y2 - b.y1)
    (hcw : 0 < cw) (hch : 0 < ch) :
    transformPoint (calculateOptimalScale b cw ch)
        ((b.x1 + b.x2) / 2) ((b.y1 + b.y2) / 2) = (cw / 2, ch / 2) ∧
    insideCanvas80 cw ch (transformPoint (calculateOptimalScale b cw ch) b.x1 b.y1) ∧
    insideCanvas80 cw ch (transformPoint (calculateOptimalScale b cw ch) b.x1 b.y2) ∧
    insideCanvas80 cw ch (transformPoint (calculateOptimalScale b cw ch) b.x2 b.y1) ∧
    insideCanvas80 cw ch (transformPoint (calculateOptimalScale b cw ch) b.x2 b.y2) := by
  have h08w : (0 : ℚ) < cw * (0.8 : ℚ) := by nlinarith
  have h08h : (0 : ℚ) < ch * (0.8 : ℚ) := by nlinarith
  unfold calculateOptimalScale transformPoint insideCanvas80
  dsimp only
  set s := min (cw * (0.8 : ℚ) / (b.x2 - b.x1)) (ch * (0.8 : ℚ) / (b.y2 - b.y1)) with hs
  have hsw : s * (b.x2 - b.x1) ≤ cw * (0.8 : ℚ) := by
    rw [← le_div_iff₀ hgw]
    exact min_le_left _ _
  have hsh : s * (b.y2 - b.y1) ≤ ch * (0.8 : ℚ) := by
    rw [← le_div_iff₀ hgh]
    exact min_le_right _ _
  have hspos : 0 < s := lt_min (div_pos h08w hgw) (div_pos h08h hgh)
  have hswpos : 0 < s * (b.x2 - b.x1) := mul_pos hspos hgw
  have hshpos : 0 < s * (b.y2 - b.y1) := mul_pos hspos hgh
  refine ⟨?_, ?_, ?_, ?_, ?_⟩
  · simp only [Prod.mk.injEq]
    constructor <;> ring
  all_goals refine ⟨?_, ?_, ?_, ?_, ?_, ?_, ?_, ?_⟩ <;>
    linarith [hsw, hsh, hswpos, hshpos, hcw, hch]

/-- Witness for C10 on the box `(0,0)–(10,10)` in a `100 × 100` canvas. -/
theorem calculateOptimalScale_fits_witness :
    ((0 : ℚ) < (10 : ℚ) - 0 ∧ (0 : ℚ) < (10 : ℚ) - 0 ∧
      (0 : ℚ) < 100 ∧ (0 : ℚ) < 100) ∧
    (transformPoint (calculateOptimalScale ⟨0, 0, 10, 10⟩ 100 100)
        ((0 + 10) / 2) ((0 + 10) / 2) = (100 / 2, 100 / 2) ∧
      insideCanvas80 100 100
        (transformPoint (calculateOptimalScale ⟨0, 0, 10, 10⟩ 100 100) 0 0) ∧
      insideCanvas80 100 100
        (transformPoint (calculateOptimalScale ⟨0, 0, 10, 10⟩ 100 100) 0 10) ∧
      insideCanvas80 100 100
        (transformPoint (calculateOptimalScale ⟨0, 0, 10, 10⟩ 100 100) 10 0) ∧
      insideCanvas80 100 100
        (transformPoint (calculateOptimalScale ⟨0, 0, 10, 10⟩ 100 100) 10 10)) :=
  ⟨⟨by norm_num, by norm_num, by norm_num, by norm_num⟩,
    calculateOptimalScale_fits ⟨0, 0, 10, 10⟩ 100 100
      (by norm_num) (by norm_num) (by norm_num) (by norm_num)⟩

end GlyphEditor
